import Mathlib

/-!
Shallow embedding of the response builder (reply.go), the static file
server (serveStatic and helpers) and the view-engine store of the aah
web framework, together with proofs of the specified properties.

Go strings are modelled as Lean String; where character-level scanning
matters the functions work on the underlying character list. Go maps
(http.Header) are modelled as association lists whose operations, like
the Go standard library, canonicalise the header key. Machine pointers
(the fluent builder returning the receiver) are modelled by returning
the updated record: chaining identity means the method yields exactly
the input record with one field changed.
-/

namespace Aah

/-! ### http.Header: canonical MIME header keys (Go net/textproto) -/

/-- Valid header-field bytes per Go textproto (the token table):
letters, digits and the listed punctuation. -/
def validHeaderFieldChar (c : Char) : Bool :=
  c.isAlphanum || c ∈ ['!', '#', '$', '%', '&', Char.ofNat 39, '*', '+',
    '-', '.', Char.ofNat 94, '_', Char.ofNat 96, '|', Char.ofNat 126]

/-- The case-folding pass of textproto CanonicalMIMEHeaderKey: the first
letter and each letter after a hyphen is upper-cased, the rest lower-cased. -/
def canonChars : Bool → List Char → List Char
  | _, [] => []
  | upper, c :: cs =>
    let c2 := if upper then c.toUpper else c.toLower
    c2 :: canonChars (c2 = '-') cs

/-- Go textproto CanonicalMIMEHeaderKey: returns the argument unchanged when
it holds an invalid header-field byte, otherwise canonicalises case. -/
def canonKey (k : String) : String :=
  if k.data.all validHeaderFieldChar then ⟨canonChars true k.data⟩ else k

/-- http.Header, a Go map from canonical keys to value lists, as an
association list. -/
abbrev HeaderMap := List (String × List String)

/-- http.Header.Set: replaces the whole value list of the canonical key. -/
def hdrSet (m : HeaderMap) (k v : String) : HeaderMap :=
  (List.filter (fun p => ¬(p.1 = canonKey k)) m) ++ [(canonKey k, [v])]

/-- http.Header.Del: removes the entry of the canonical key. -/
def hdrDel (m : HeaderMap) (k : String) : HeaderMap :=
  List.filter (fun p => ¬(p.1 = canonKey k)) m

/-- http.Header.Add: appends the value to the value list of the canonical
key, creating the entry when absent. -/
def hdrAdd (m : HeaderMap) (k v : String) : HeaderMap :=
  match List.find? (fun p => p.1 = canonKey k) m with
  | none => m ++ [(canonKey k, [v])]
  | some _ =>
      List.map (fun p => if p.1 = canonKey k then (p.1, p.2 ++ [v]) else p) m

/-- http.Header.Get: the first value stored under the canonical key, if any. -/
def hdrGet (m : HeaderMap) (k : String) : Option String :=
  (List.find? (fun p => p.1 = canonKey k) m).bind (fun p => p.2.head?)

/-! ### The Reply builder (reply.go) -/

/-- The renderer variants a Reply can carry (payloads elided: the claims
only inspect presence). -/
inductive Render where
  | json | jsonp | xml | text | binary | html
  deriving DecidableEq, Repr

/-- An http.Cookie (only the fields the claims can observe). -/
structure Cookie where
  name : String
  value : String
  deriving DecidableEq, Repr

/-- reply.go Reply: the response builder state. Go nil slices and nil
buffers are the empty list and none; the Hdr map is always initialised
by NewReply and Reset, so it is carried directly. -/
structure Reply where
  Code : Nat
  ContType : String
  Hdr : HeaderMap
  Rdr : Option Render
  body : Option (List Nat)
  cookies : List Cookie
  redirect : Bool
  path : String
  done : Bool
  gzip : Bool
  deriving DecidableEq

/-- ahttp.HeaderContentType. -/
def headerContentType : String := "Content-Type"

/-- reply.go NewReply: Hdr initialised empty, Code 200, gzip on; all other
fields at their zero values. -/
def NewReply : Reply :=
  { Code := 200, ContType := "", Hdr := [], Rdr := none, body := none,
    cookies := [], redirect := false, path := "", done := false, gzip := true }

/-- essentials IsStrEmpty as used by Reply.Header; the doc comment of
Reply.Header states the contract: if value == "" the header is deleted. -/
def isStrEmpty (v : String) : Bool := v = ""

namespace Reply

/-- reply.go Reply.Status. -/
def Status (r : Reply) (code : Nat) : Reply := { r with Code := code }

/-- reply.go Reply.Ok. -/
def Ok (r : Reply) : Reply := r.Status 200

/-- reply.go Reply.Created. -/
def Created (r : Reply) : Reply := r.Status 201

/-- reply.go Reply.Accepted. -/
def Accepted (r : Reply) : Reply := r.Status 202

/-- reply.go Reply.NoContent. -/
def NoContent (r : Reply) : Reply := r.Status 204

/-- reply.go Reply.MovedPermanently. -/
def MovedPermanently (r : Reply) : Reply := r.Status 301

/-- reply.go Reply.Found. -/
def Found (r : Reply) : Reply := r.Status 302

/-- reply.go Reply.TemporaryRedirect. -/
def TemporaryRedirect (r : Reply) : Reply := r.Status 307

/-- reply.go Reply.BadRequest. -/
def BadRequest (r : Reply) : Reply := r.Status 400

/-- reply.go Reply.Unauthorized. -/
def Unauthorized (r : Reply) : Reply := r.Status 401

/-- reply.go Reply.Forbidden. -/
def Forbidden (r : Reply) : Reply := r.Status 403

/-- reply.go Reply.NotFound. -/
def NotFound (r : Reply) : Reply := r.Status 404

/-- reply.go Reply.MethodNotAllowed. -/
def MethodNotAllowed (r : Reply) : Reply := r.Status 405

/-- reply.go Reply.Conflict. -/
def Conflict (r : Reply) : Reply := r.Status 409

/-- reply.go Reply.InternalServerError. -/
def InternalServerError (r : Reply) : Reply := r.Status 500

/-- reply.go Reply.ServiceUnavailable. -/
def ServiceUnavailable (r : Reply) : Reply := r.Status 503

/-- reply.go Reply.ContentType. -/
def ContentType (r : Reply) (contentType : String) : Reply :=
  { r with ContType := contentType }

/-- reply.go Reply.Header: an empty value deletes the key; the
Content-Type key is redirected to ContentType; otherwise Hdr.Set. -/
def Header (r : Reply) (key value : String) : Reply :=
  if isStrEmpty value then
    if key = headerContentType then r.ContentType ""
    else { r with Hdr := hdrDel r.Hdr key }
  else
    if key = headerContentType then r.ContentType value
    else { r with Hdr := hdrSet r.Hdr key value }

/-- reply.go Reply.HeaderAppend: the Content-Type key is redirected to
ContentType; otherwise Hdr.Add. -/
def HeaderAppend (r : Reply) (key value : String) : Reply :=
  if key = headerContentType then r.ContentType value
  else { r with Hdr := hdrAdd r.Hdr key value }

/-- reply.go Reply.Done. -/
def Done (r : Reply) : Reply := { r with done := true }

/-- reply.go Reply.Cookie: appends (a Go nil slice and the empty slice
append identically). -/
def Cookie (r : Reply) (c : Cookie) : Reply :=
  { r with cookies := r.cookies ++ [c] }

/-- reply.go Reply.DisableGzip. -/
def DisableGzip (r : Reply) : Reply := { r with gzip := false }

/-- reply.go Reply.IsContentTypeSet. -/
def IsContentTypeSet (r : Reply) : Bool := ¬ isStrEmpty r.ContType

/-- reply.go Reply.Reset: every field back to the initialised state
(Go makes the cookie slice empty and the Hdr map a fresh empty map). -/
def Reset (_ : Reply) : Reply :=
  { Code := 200, ContType := "", Hdr := [], Rdr := none, body := none,
    cookies := [], redirect := false, path := "", done := false, gzip := true }

/-- reply.go Reply.RedirectSts. -/
def RedirectSts (r : Reply) (redirectURL : String) (code : Nat) : Reply :=
  { (({ r with redirect := true } : Reply).Status code) with path := redirectURL }

/-- reply.go Reply.Redirect. -/
def Redirect (r : Reply) (redirectURL : String) : Reply :=
  r.RedirectSts redirectURL 302

end Reply

/-! ### Path helpers (Go path and path/filepath, Unix separator) -/

/-- The scan inside filepath.Ext, over the reversed character list: stop
empty at a separator, return the suffix from the last dot. -/
def extScan : List Char → List Char → List Char
  | _, [] => []
  | acc, c :: cs =>
    if c = '/' then [] else if c = '.' then c :: acc else extScan (c :: acc) cs

/-- Go filepath.Ext: the suffix of the last element starting at its final
dot, empty when there is no dot. -/
def filepathExt (p : String) : String := ⟨extScan [] p.data.reverse⟩

/-- static.go checkGzipRequired: gzip by extension allow-list. -/
def checkGzipRequired (file : String) : Bool :=
  let e := filepathExt file
  if e = ".css" ∨ e = ".js" ∨ e = ".html" ∨ e = ".htm" ∨ e = ".json"
      ∨ e = ".xml" ∨ e = ".txt" ∨ e = ".csv" ∨ e = ".ttf" ∨ e = ".otf"
      ∨ e = ".eot"
    then true else false

/-- Split after the last separator: Go path.Split returns the pair
(everything through the final slash, everything after it). -/
def splitAtLastSlash : List Char → List Char × List Char
  | [] => ([], [])
  | c :: cs =>
    if '/' ∈ cs then
      ((splitAtLastSlash cs).1.cons c, (splitAtLastSlash cs).2)
    else if c = '/' then ([c], cs)
    else ([], c :: cs)

/-- Drop trailing separators, the first loop of Go path.Base. -/
def stripTrailingSlashes (l : List Char) : List Char :=
  (l.reverse.dropWhile (fun c => c = '/')).reverse

/-- Go path.Base: the last element of the path after dropping trailing
slashes; "." for the empty path, "/" when the path is all slashes. -/
def pathBase (p : String) : String :=
  if p.data = [] then "."
  else
    let q := stripTrailingSlashes p.data
    let b := (splitAtLastSlash q).2
    if b = [] then "/" else ⟨b⟩

/-- The inner loop of the dotdot case of Go path.Clean: decrement the
write index until it reaches dotdot or the buffer char at it is a slash. -/
def cleanBacktrack (out : List Char) (dotdot : Nat) : Nat → Nat
  | 0 => 0
  | n + 1 =>
    if n + 1 > dotdot ∧ ¬(out.getD (n + 1) (Char.ofNat 0) = '/') then
      cleanBacktrack out dotdot n
    else n + 1

/-- The main loop of Go path.Clean, the lazybuf modelled as the list of
written characters. Each iteration consumes at least one input character,
so fuel equal to the input length is enough. -/
def cleanLoop (rooted : Bool) : Nat → List Char → Nat → List Char → List Char
  | _, out, _, [] => out
  | 0, out, _, _ => out
  | fuel + 1, out, dotdot, c :: rest =>
    if c = '/' then cleanLoop rooted fuel out dotdot rest
    else if c = '.' ∧ (rest = [] ∨ rest.head? = some '/') then
      cleanLoop rooted fuel out dotdot rest
    else if c = '.' ∧ rest.head? = some '.' ∧
        (rest.tail = [] ∨ rest.tail.head? = some '/') then
      if dotdot < out.length then
        cleanLoop rooted fuel
          (out.take (cleanBacktrack out dotdot (out.length - 1))) dotdot rest.tail
      else if ¬ rooted then
        let out2 := (if 0 < out.length then out ++ ['/'] else out) ++ ['.', '.']
        cleanLoop rooted fuel out2 out2.length rest.tail
      else
        cleanLoop rooted fuel out dotdot rest.tail
    else
      let seg := List.takeWhile (fun ch => ¬(ch = '/')) (c :: rest)
      let rest2 := List.dropWhile (fun ch => ¬(ch = '/')) (c :: rest)
      let out2 := (if (rooted ∧ ¬(out.length = 1)) ∨ (¬rooted ∧ ¬(out.length = 0))
        then out ++ ['/'] else out) ++ seg
      cleanLoop rooted fuel out2 dotdot rest2

/-- Go path.Clean: the shortest lexically equivalent path. -/
def pathClean (p : String) : String :=
  if p.data = [] then "."
  else
    let rooted := p.data.head? = some '/'
    let body := if rooted then p.data.tail else p.data
    let out := cleanLoop rooted body.length (if rooted then ['/'] else [])
      (if rooted then 1 else 0) body
    if out = [] then "." else ⟨out⟩

/-- The clean-but-preserve-trailing-slash step of net/http.Redirect. -/
def cleanKeepTrailingSlash (s : String) : String :=
  let trailing := s.data.getLast? = some '/'
  let c := pathClean s
  if trailing ∧ ¬(c.data.getLast? = some '/') then ⟨c.data ++ ['/']⟩ else c

/-- Split before the first occurrence of a character: the second component
begins with the separator when present (the way Go keeps the question mark
on the query), and is empty when the separator is absent. -/
def splitAtFirstChar (ch : Char) : List Char → List Char × List Char
  | [] => ([], [])
  | c :: cs =>
    if c = ch then ([], c :: cs)
    else ((splitAtFirstChar ch cs).1.cons c, (splitAtFirstChar ch cs).2)

/-- Go net/url ishex. -/
def isHexDigit (c : Char) : Bool :=
  ('0' ≤ c ∧ c ≤ '9') ∨ ('a' ≤ c ∧ c ≤ 'f') ∨ ('A' ≤ c ∧ c ≤ 'F')

/-- The escape validity that Go net/url unescape enforces on the path and
fragment: every percent sign must be followed by two hex digits. -/
def validPercentEscapes : List Char → Bool
  | [] => true
  | c :: cs =>
    if c = '%' then
      match cs with
      | a :: b :: rest =>
        (isHexDigit a ∧ isHexDigit b) ∧ validPercentEscapes rest
      | _ => false
    else validPercentEscapes cs

/-- Outcome of the Go net/url getScheme scan. -/
inductive SchemeScanResult where
  | err | found | nothing
  deriving DecidableEq, Repr

/-- Go net/url getScheme: letters continue a candidate scheme; a digit,
plus, minus or dot continues it except in first position; a colon in first
position is an error, later it ends a found scheme; any other character
means there is no scheme. The flag tracks first position. -/
def schemeScan : Bool → List Char → SchemeScanResult
  | _, [] => .nothing
  | first, c :: cs =>
    if ('a' ≤ c ∧ c ≤ 'z') ∨ ('A' ≤ c ∧ c ≤ 'Z') then schemeScan false cs
    else if ('0' ≤ c ∧ c ≤ '9') ∨ c = '+' ∨ c = '-' ∨ c = '.' then
      if first then .nothing else schemeScan false cs
    else if c = ':' then
      if first then .err else .found
    else .nothing

/-- How net/http.Redirect sees the result of url.Parse on its target:
a parse error, a target carrying a scheme, a target carrying an authority
(host), or a schemeless hostless reference, the only case Redirect
resolves against the request path and cleans. -/
inductive TargetParse where
  | errParse | schemeFound | authority | relative
  deriving DecidableEq, Repr

/-- The part of Go net/url Parse that net/http.Redirect consults: whether
parsing succeeds (err == nil) with empty Scheme and empty Host. The
fragment is cut at the first hash; the control-byte scan and the scheme
scan run on the pre-fragment part; the query is cut at the first question
mark; a rootless first path segment may not contain a colon; percent
escapes must be valid in the path and the fragment (not the query); a
leading double slash (but not triple) carries an authority, whose host
extraction is abstracted: such a target is never the resolve case (the
static server passes pathBase(req.Path) ++ "/", which never starts with
a slash, so the authority branch is unreachable from it). -/
def targetParse (t : String) : TargetParse :=
  let u0 := (splitAtFirstChar (Char.ofNat 35) t.data).1
  let frag := ((splitAtFirstChar (Char.ofNat 35) t.data).2).tail
  if u0.any (fun c => c.toNat < 0x20 ∨ c.toNat = 0x7f) then .errParse
  else
    match schemeScan true u0 with
    | .err => .errParse
    | .found => .schemeFound
    | .nothing =>
      let rest := (splitAtFirstChar '?' u0).1
      if ¬(rest.head? = some '/') then
        if ':' ∈ rest.takeWhile (fun c => ¬(c = '/')) then .errParse
        else if ¬(validPercentEscapes rest ∧ validPercentEscapes frag) then
          .errParse
        else .relative
      else if rest.take 2 = ['/', '/'] ∧ ¬(rest.take 3 = ['/', '/', '/']) then
        .authority
      else if ¬(validPercentEscapes rest ∧ validPercentEscapes frag) then
        .errParse
      else .relative

/-- A lowercase hex digit, as strconv.AppendInt base 16 produces. -/
def lowerHexDigit (n : Nat) : Char :=
  if n < 10 then Char.ofNat (48 + n) else Char.ofNat (87 + n)

/-- The UTF-8 bytes of one rune. -/
def utf8Bytes (c : Char) : List Nat :=
  let n := c.toNat
  if n < 0x80 then [n]
  else if n < 0x800 then [0xC0 + n / 0x40, 0x80 + n % 0x40]
  else if n < 0x10000 then
    [0xE0 + n / 0x1000, 0x80 + (n / 0x40) % 0x40, 0x80 + n % 0x40]
  else
    [0xF0 + n / 0x40000, 0x80 + (n / 0x1000) % 0x40,
      0x80 + (n / 0x40) % 0x40, 0x80 + n % 0x40]

/-- Go net/http hexEscapeNonASCII: every byte at or above 0x80 becomes a
percent escape in lowercase hex; ASCII bytes pass through. The model works
per rune, expanding a non-ASCII rune to the escapes of its UTF-8 bytes,
which all lie at or above 0x80, so it coincides with the byte loop. -/
def hexEscapeNonASCII (s : String) : String :=
  ⟨s.data.flatMap (fun c =>
    if c.toNat < 0x80 then [c]
    else (utf8Bytes c).flatMap
      (fun b => ['%', lowerHexDigit (b / 16), lowerHexDigit (b % 16)]))⟩

/-- The Location header computed by Go net/http.Redirect: when the target
parses as a schemeless hostless reference, a relative target is resolved
against the directory of the request path, the query is cut at the first
question mark, the path is cleaned preserving a trailing slash and the
query re-appended; otherwise the raw target stands; the result is then
hex-escaped byte-wise. -/
def redirectLocation (oldpath0 target : String) : String :=
  hexEscapeNonASCII
    (match targetParse target with
    | .relative =>
      let oldpath := if oldpath0 = "" then "/" else oldpath0
      let u := if target = "" ∨ ¬(target.data.head? = some '/')
        then (⟨(splitAtLastSlash oldpath.data).1 ++ target.data⟩ : String)
        else target
      let pq := splitAtFirstChar '?' u.data
      (⟨(cleanKeepTrailingSlash ⟨pq.1⟩).data ++ pq.2⟩ : String)
    | _ => target)

/-- The framework-level error channel; errFileNotFound is the distinguished
value serveStatic returns for a missing file. -/
inductive FrameworkError where
  | errFileNotFound
  deriving DecidableEq, Repr

/-- Outcome of httpDir.Open(filePath), classified exactly the way
serveStatic classifies it via os.IsNotExist and os.IsPermission. -/
inductive OpenOutcome where
  | notExist | permission | otherErr | opened
  deriving DecidableEq, Repr

/-- The file mode classes serveStatic distinguishes through
fi.Mode().IsRegular() and fi.Mode().IsDir(). -/
inductive FileMode where
  | regular | directory | other
  deriving DecidableEq, Repr

/-- The inputs serveStatic branches on: the filesystem outcomes, the route
flag ListDir, the request path (ahttp sets Req.Path from Req.Raw.URL.Path)
and the resolved file path from getHTTPDirAndFilePath. -/
structure StaticCtx where
  openResult : OpenOutcome
  statErr : Bool
  mode : FileMode
  listDir : Bool
  reqPath : String
  filePath : String
  deriving DecidableEq, Repr

/-- The response-side effects serveStatic can perform, in order. -/
inductive StaticAction where
  | writeStatus (code : Nat)
  | writeBody (body : String)
  | setGzip (b : Bool)
  | wrapGzip
  | writeHeaders
  | preReply
  | afterReply
  | serveContent
  | redirect (location : String) (code : Nat)
  | dirList
  deriving DecidableEq, Repr

/-- What one serveStatic call did to the response, and the error it
returned to the framework. -/
structure StaticResult where
  actions : List StaticAction
  err : Option FrameworkError
  deriving DecidableEq, Repr

/-- static.go engine.serveStatic. The value none models the Go runtime
panic of req.Path[len(req.Path)-1] when the request path is empty; every
other control path yields some result. -/
def serveStatic (c : StaticCtx) : Option StaticResult :=
  match c.openResult with
  | .notExist => some ⟨[], some .errFileNotFound⟩
  | .permission =>
      some ⟨[.writeStatus 403, .writeBody "403 Forbidden"], none⟩
  | .otherErr =>
      some ⟨[.writeStatus 500, .writeBody "500 Internal Server Error"], none⟩
  | .opened =>
    if c.statErr then
      some ⟨[.writeStatus 500, .writeBody "500 Internal Server Error"], none⟩
    else
      let pre : List StaticAction :=
        [.setGzip (checkGzipRequired c.filePath), .wrapGzip, .writeHeaders]
      if c.mode = .regular then
        some ⟨pre ++ [.preReply, .serveContent, .afterReply], none⟩
      else if c.mode = .directory ∧ c.listDir then
        if c.reqPath.data = [] then none
        else if ¬(c.reqPath.data.getLast? = some '/') then
          some ⟨pre ++ [.redirect
            (redirectLocation c.reqPath ⟨(pathBase c.reqPath).data ++ ['/']⟩)
            302], none⟩
        else
          some ⟨pre ++ [.preReply, .dirList, .afterReply], none⟩
      else
        some ⟨pre ++ [.writeStatus 403,
          .writeBody "403 Directory listing not allowed"], none⟩

/-- The gzip extension allow-list named by the specification. -/
def gzipAllowList : List String :=
  [".css", ".js", ".html", ".htm", ".json", ".xml", ".txt", ".csv",
   ".ttf", ".otf", ".eot"]

/-! ### The view-engine store -/

/-- A registered view engine; its behaviour is irrelevant to the store, an
opaque token stands for the Go interface value. -/
structure ViewEngine where
  id : Nat
  deriving DecidableEq, Repr

/-- The registration error taxonomy of the view store: a duplicate name
(the error names the offending engine name) or a nil engine value. The
two constructors are distinct error values. -/
inductive ViewStoreError where
  | duplicateName (name : String)
  | nilEngine
  deriving DecidableEq, Repr

/-- Modelled from the spec: view.GetEngine, whose source is not among the
analysed files, looks a registered engine up by name. -/
def getEngine (store : List (String × ViewEngine)) (name : String) :
    Option ViewEngine :=
  (List.find? (fun p => p.1 = name) store).map (fun p => p.2)

/-- Modelled from the spec: AddViewEngine / view.AddEngine, whose source is
not among the analysed files. Registration errors (duplicate view-engine
name, nil engine) are reported as explicit failure values at setup time,
never panics (the model is a total function); a duplicate name leaves the
store unchanged. The nil Go interface value is the none argument; the
result is the returned error value paired with the store after the call. -/
def addViewEngine (store : List (String × ViewEngine)) (name : String)
    (engine : Option ViewEngine) :
    Option ViewStoreError × List (String × ViewEngine) :=
  match engine with
  | none => (some .nilEngine, store)
  | some e =>
    if (getEngine store name).isSome then
      (some (.duplicateName name), store)
    else
      (none, store ++ [(name, e)])

/-! ### Helper lemmas -/

theorem find?_filter_ne_none (m : HeaderMap) (ck : String) :
    List.find? (fun p => p.1 = ck) (List.filter (fun p => ¬(p.1 = ck)) m)
      = none := by
  induction m with
  | nil => rfl
  | cons a t ih =>
    by_cases h : a.1 = ck <;> simp [List.filter_cons, h, List.find?_cons, ih]

theorem find?_filter_ne_append (m : HeaderMap) (ck : String)
    (x : String × List String) (hx : x.1 = ck) :
    List.find? (fun p => p.1 = ck)
      (List.filter (fun p => ¬(p.1 = ck)) m ++ [x]) = some x := by
  induction m with
  | nil => simp [List.find?_cons, hx]
  | cons a t ih =>
    by_cases h : a.1 = ck
    · simpa [List.filter_cons, h] using ih
    · simp only [List.filter_cons, h, decide_not, decide_eq_true_eq,
        if_pos, List.cons_append, List.find?_cons]
      simp [h, ih, hx]

theorem hdrGet_hdrDel (m : HeaderMap) (k : String) :
    hdrGet (hdrDel m k) k = none := by
  unfold hdrGet hdrDel
  rw [find?_filter_ne_none]
  rfl

theorem hdrGet_hdrSet (m : HeaderMap) (k v : String) :
    hdrGet (hdrSet m k v) k = some v := by
  unfold hdrGet hdrSet
  rw [find?_filter_ne_append m (canonKey k) (canonKey k, [v]) rfl]
  rfl

/-! ### The claims -/

/-- C1: for every Reply r and string v, Header with key Content-Type and
value v yields exactly the state ContentType v yields, for HeaderAppend as
well; in particular neither call touches the Hdr mapping, so content-type
state stays solely in the ContType field. -/
theorem header_contentType_single_source (r : Reply) (v : String) :
    r.Header headerContentType v = r.ContentType v ∧
    r.HeaderAppend headerContentType v = r.ContentType v ∧
    (r.Header headerContentType v).Hdr = r.Hdr ∧
    (r.HeaderAppend headerContentType v).Hdr = r.Hdr := by
  by_cases hv : v = ""
  · subst hv
    refine ⟨rfl, rfl, rfl, rfl⟩
  · simp [Reply.Header, Reply.HeaderAppend, Reply.ContentType, isStrEmpty, hv]

/-- C6: Reset restores every field of any Reply to its documented initial
value (Code 200, empty ContType, empty initialised header mapping, no
renderer, no body, empty cookie list, redirect off with empty path, done
off, gzip on), which is exactly the state NewReply constructs. -/
theorem reset_restores_initial_state (r : Reply) :
    r.Reset = NewReply ∧
    r.Reset.Code = 200 ∧ r.Reset.ContType = "" ∧ r.Reset.Hdr = [] ∧
    r.Reset.Rdr = none ∧ r.Reset.body = none ∧ r.Reset.cookies = [] ∧
    r.Reset.redirect = false ∧ r.Reset.path = "" ∧ r.Reset.done = false ∧
    r.Reset.gzip = true :=
  ⟨rfl, rfl, rfl, rfl, rfl, rfl, rfl, rfl, rfl, rfl, rfl⟩

/-- C7: each status-convenience method sets Code to its documented value
and changes no other field; returning the receiver for chaining is the
record-update form, the result being the input with only Code replaced. -/
theorem status_methods_set_documented_code (r : Reply) :
    r.Ok = { r with Code := 200 } ∧
    r.Created = { r with Code := 201 } ∧
    r.Accepted = { r with Code := 202 } ∧
    r.NoContent = { r with Code := 204 } ∧
    r.MovedPermanently = { r with Code := 301 } ∧
    r.Found = { r with Code := 302 } ∧
    r.TemporaryRedirect = { r with Code := 307 } ∧
    r.BadRequest = { r with Code := 400 } ∧
    r.Unauthorized = { r with Code := 401 } ∧
    r.Forbidden = { r with Code := 403 } ∧
    r.NotFound = { r with Code := 404 } ∧
    r.MethodNotAllowed = { r with Code := 405 } ∧
    r.Conflict = { r with Code := 409 } ∧
    r.InternalServerError = { r with Code := 500 } ∧
    r.ServiceUnavailable = { r with Code := 503 } :=
  ⟨rfl, rfl, rfl, rfl, rfl, rfl, rfl, rfl, rfl, rfl, rfl, rfl, rfl, rfl, rfl⟩

/-- C8: Header with an empty value removes the key (the ContType field for
the Content-Type key, the Hdr entry for every other key, leaving the other
side untouched), and with a non-empty value overwrites whatever the key
held before. -/
theorem header_empty_deletes_nonempty_overwrites (r : Reply) (k v : String)
    (hv : ¬(v = "")) :
    (k = headerContentType →
      (r.Header k "").ContType = "" ∧ (r.Header k "").Hdr = r.Hdr ∧
      (r.Header k v).ContType = v ∧ (r.Header k v).Hdr = r.Hdr) ∧
    (¬(k = headerContentType) →
      hdrGet (r.Header k "").Hdr k = none ∧
      (r.Header k "").ContType = r.ContType ∧
      hdrGet (r.Header k v).Hdr k = some v ∧
      (r.Header k v).ContType = r.ContType) := by
  constructor
  · intro hk
    subst hk
    simp [Reply.Header, Reply.ContentType, isStrEmpty, hv]
  · intro hk
    refine ⟨?_, ?_, ?_, ?_⟩ <;>
      simp [Reply.Header, Reply.ContentType, isStrEmpty, hv, hk,
        hdrGet_hdrDel, hdrGet_hdrSet]

/-- Closed witness for C8: on a fresh Reply, setting then deleting the
X-Custom header removes it, and a second Set overwrites the first. -/
theorem header_empty_deletes_nonempty_overwrites_witness :
    hdrGet ((NewReply.Header "X-Custom" "").Hdr) "X-Custom" = none ∧
    hdrGet ((NewReply.Header "X-Custom" "one").Hdr) "X-Custom" = some "one" :=
  ⟨((header_empty_deletes_nonempty_overwrites NewReply "X-Custom" "one"
      (by decide)).2 (by decide)).1,
   ((header_empty_deletes_nonempty_overwrites NewReply "X-Custom" "one"
      (by decide)).2 (by decide)).2.2.1⟩

/-- C2: when the resolved path does not exist, serveStatic hands the
file-not-found error back to the framework and performs no response
action at all: no status, no body, in particular neither 500 nor 403. -/
theorem serveStatic_notExist_defers_not_found (c : StaticCtx)
    (h : c.openResult = .notExist) :
    serveStatic c = some ⟨[], some .errFileNotFound⟩ := by
  simp [serveStatic, h]

/-- Closed witness for C2 at a concrete missing-file request. -/
theorem serveStatic_notExist_defers_not_found_witness :
    serveStatic
      { openResult := .notExist, statErr := false, mode := .other,
        listDir := false, reqPath := "/static/app.js", filePath := "app.js" }
      = some ⟨[], some .errFileNotFound⟩ :=
  serveStatic_notExist_defers_not_found _ rfl

/-- C3: a permission failure on open answers 403 immediately with no
framework error; any other open failure, and any Stat failure, answers
500 immediately with no framework error. -/
theorem serveStatic_permission_403_other_500 (c : StaticCtx) :
    (c.openResult = .permission →
      serveStatic c
        = some ⟨[.writeStatus 403, .writeBody "403 Forbidden"], none⟩) ∧
    (c.openResult = .otherErr →
      serveStatic c = some
        ⟨[.writeStatus 500, .writeBody "500 Internal Server Error"], none⟩) ∧
    (c.openResult = .opened → c.statErr = true →
      serveStatic c = some
        ⟨[.writeStatus 500, .writeBody "500 Internal Server Error"], none⟩) := by
  refine ⟨fun h => ?_, fun h => ?_, fun h hs => ?_⟩ <;> simp [serveStatic, h]
  simp [hs]

/-- Closed witness for C3: the three error classes at concrete requests. -/
theorem serveStatic_permission_403_other_500_witness :
    serveStatic
      { openResult := .permission, statErr := false, mode := .other,
        listDir := false, reqPath := "/static/secret", filePath := "secret" }
      = some ⟨[.writeStatus 403, .writeBody "403 Forbidden"], none⟩ ∧
    serveStatic
      { openResult := .otherErr, statErr := false, mode := .other,
        listDir := false, reqPath := "/static/io", filePath := "io" }
      = some ⟨[.writeStatus 500,
          .writeBody "500 Internal Server Error"], none⟩ ∧
    serveStatic
      { openResult := .opened, statErr := true, mode := .other,
        listDir := false, reqPath := "/static/st", filePath := "st" }
      = some ⟨[.writeStatus 500,
          .writeBody "500 Internal Server Error"], none⟩ :=
  ⟨(serveStatic_permission_403_other_500 _).1 rfl,
   (serveStatic_permission_403_other_500 _).2.1 rfl,
   (serveStatic_permission_403_other_500 _).2.2 rfl rfl⟩

/-- C5: gzip eligibility is exactly membership of the file extension in
the fixed allow-list, independent of anything but the path; concretely it
holds for the .css, .js and .json sample inputs and fails for .png. -/
theorem checkGzipRequired_iff_allowList (file : String) :
    (checkGzipRequired file = true ↔ filepathExt file ∈ gzipAllowList) ∧
    checkGzipRequired ".css" = true ∧
    checkGzipRequired ".js" = true ∧
    checkGzipRequired ".json" = true ∧
    checkGzipRequired ".png" = false := by
  refine ⟨?_, by decide, by decide, by decide, by decide⟩
  dsimp only [checkGzipRequired, gzipAllowList]
  split
  · rename_i h
    simp only [List.mem_cons, List.not_mem_nil, or_false, true_iff]
    tauto
  · rename_i h
    simp only [List.mem_cons, List.not_mem_nil, or_false, false_iff]
    tauto

/-- C10: in the directory-listing branch the code indexes the last byte of
the request path with no emptiness guard; the run is panic-free (the model
returns a result) exactly when the request path is non-empty. -/
theorem serveStatic_dir_total_iff_path_nonempty (c : StaticCtx)
    (ho : c.openResult = .opened) (hs : c.statErr = false)
    (hm : c.mode = .directory) (hl : c.listDir = true) :
    (serveStatic c).isSome = true ↔ ¬(c.reqPath = "") := by
  simp only [serveStatic, ho, hs, hm, hl]
  by_cases hp : c.reqPath.data = []
  · have hpe : c.reqPath = "" := String.ext (show c.reqPath.data = "".data from hp)
    simp [hp, hpe]
  · have hpe : ¬(c.reqPath = "") := fun he => hp (by rw [he])
    by_cases hsl : c.reqPath.data.getLast? = some '/' <;> simp [hp, hsl, hpe]

/-- Closed witness for C10: a non-empty directory path serves, the empty
path is the panic case. -/
theorem serveStatic_dir_total_iff_path_nonempty_witness :
    ((serveStatic
      { openResult := .opened, statErr := false,
        mode := .directory, listDir := true, reqPath := "/static/css",
        filePath := "css" }).isSome = true) ∧
    serveStatic
      { openResult := .opened, statErr := false,
        mode := .directory, listDir := true, reqPath := "",
        filePath := "" } = none :=
  ⟨(serveStatic_dir_total_iff_path_nonempty _ rfl rfl rfl rfl).mpr
      (by decide),
   by decide⟩

/-- C9: registering a view engine under an already-registered name yields
the descriptive duplicate-registration error and leaves the store, and the
engine retrievable under that name, unchanged; registering a nil engine
yields the distinct nil-engine error; both are returned error values of a
total function, not panics. -/
theorem addViewEngine_duplicate_nil_errors
    (store : List (String × ViewEngine)) (name : String)
    (e0 eNew : ViewEngine) (h : getEngine store name = some e0) :
    (addViewEngine store name (some eNew)).1
        = some (.duplicateName name) ∧
    (addViewEngine store name (some eNew)).2 = store ∧
    getEngine (addViewEngine store name (some eNew)).2 name = some e0 ∧
    (addViewEngine store name none).1 = some .nilEngine ∧
    (addViewEngine store name none).2 = store ∧
    ¬(ViewStoreError.duplicateName name = ViewStoreError.nilEngine) := by
  have hs : (getEngine store name).isSome = true := by rw [h]; rfl
  refine ⟨?_, ?_, ?_, rfl, rfl, by simp⟩ <;> simp [addViewEngine, hs, h]

/-- Closed witness for C9: with the go engine registered, re-registering
go fails with the duplicate error keeping the original engine, and a nil
registration fails with the nil-engine error. -/
theorem addViewEngine_duplicate_nil_errors_witness :
    (addViewEngine [("go", ⟨0⟩)] "go" (some ⟨1⟩)).1
        = some (.duplicateName "go") ∧
    getEngine (addViewEngine [("go", ⟨0⟩)] "go" (some ⟨1⟩)).2 "go"
        = some ⟨0⟩ ∧
    (addViewEngine [("go", ⟨0⟩)] "go" none).1 = some .nilEngine :=
  ⟨(addViewEngine_duplicate_nil_errors _ "go" ⟨0⟩ ⟨1⟩ (by decide)).1,
   (addViewEngine_duplicate_nil_errors _ "go" ⟨0⟩ ⟨1⟩ (by decide)).2.2.1,
   (addViewEngine_duplicate_nil_errors _ "go" ⟨0⟩ ⟨1⟩ (by decide)).2.2.2.1⟩

end Aah
